import Mathlib

/-!
Shallow embedding of the request helpers of the c-helpers repository
(`src/request.h`, HTTP branch lines 159-261 and MQTT branch lines 263-284),
together with the Arduino / AVR-libc string primitives the code calls
(`String::indexOf`, `String::substring`, `String::toInt` which is `atol`,
`String::concat(unsigned int)` which prints decimal digits, and
`Print::println` which writes the payload followed by a CRLF pair).

Byte strings are modeled as `List Char`, one `Char` per byte.  Machine
integers stay tiny everywhere except the `int -> byte` narrowing applied
to `first_space` (request.h line 240), which is modeled explicitly with
`% 256`.  Overflow of `long` inside `atol` is undefined behavior in the
source and is not modeled: `atol` returns the mathematical integer.
-/

/-- Constant `_HEADER_LEN` from request.h line 160: capacity of the response-header
capture; the stack buffer itself is `_HEADER_LEN + 1` bytes. -/
def HEADER_LEN : Nat := 49

/-- The whitespace class skipped by AVR-libc `atol`. -/
def isSpaceC (c : Char) : Bool :=
  c = ' ' || c = '\t' || c = '\n' || c = '\x0b' || c = '\x0c' || c = '\r'

/-- Decimal digit test: the byte is between the codes of 0 and 9. -/
def isDigitC (c : Char) : Bool := 48 ≤ c.toNat && c.toNat ≤ 57

/-- Value of the leading decimal-digit run, accumulator style, as read by
`atol`. -/
def digitsAux : List Char → Nat → Nat
  | [], acc => acc
  | c :: rest, acc =>
    if isDigitC c then digitsAux rest (acc * 10 + (c.toNat - 48)) else acc

/-- Sign-and-digit step of AVR-libc `atol`, applied after whitespace has
been skipped: an optional sign byte followed by the leading digit run. -/
def atolSigned : List Char → Int
  | [] => 0
  | c :: rest =>
    if c = '-' then -(digitsAux rest 0 : Int)
    else if c = '+' then (digitsAux rest 0 : Int)
    else (digitsAux (c :: rest) 0 : Int)

/-- AVR-libc `atol`, which is what `String::toInt` calls on the buffer:
skip whitespace, read an optional sign, then the leading digit run;
0 when no digits are present. -/
def atol (s : List Char) : Int := atolSigned (s.dropWhile isSpaceC)

/-- Arduino `String::toInt`: `atol` on the character buffer. -/
def strToInt (s : List Char) : Int := atol s

/-- Arduino `String::indexOf` with a single-byte needle: index of the first
occurrence as an `int`, or -1 when absent. -/
def strIndexOf : List Char → Char → Int
  | [], _ => -1
  | a :: rest, c =>
    if a = c then 0
    else if strIndexOf rest c = -1 then -1 else strIndexOf rest c + 1

/-- Arduino `String::substring(left, right)`: swap the bounds when `left > right`,
clamp to the length, and return the bytes in `[left, right)`. -/
def strSubstring (s : List Char) (left right : Nat) : List Char :=
  let l := if left > right then right else left
  let r := if left > right then left else right
  (s.take r).drop l

/-- Reading a `char[]` buffer as an Arduino `String` (request.h line 235,
`String(header_str)`), i.e. as a C string: the bytes up to the first NUL. -/
def cstr (s : List Char) : List Char := s.takeWhile (fun c => c ≠ '\x00')

/-- C narrowing conversion `int -> byte` (`uint8_t`): value mod 2^8. -/
def intToByte (i : Int) : Nat := (i % 256).toNat

/-- Parse phase of `http_request` (request.h lines 240-252) applied to the
captured header C string.  `first_space` is declared `byte`, so the `int`
returned by `indexOf` narrows mod 256, and `first_space == -1` compares the
promoted nonnegative value with -1 (it can never hold; a missing space shows
up as 255 and is caught by the `> _HEADER_LEN` disjunct instead). -/
def parseStatus (header : List Char) : Int :=
  let first_space : Nat := intToByte (strIndexOf header ' ')
  if (first_space : Int) = -1 ∨ first_space > HEADER_LEN then 0
  else
    let possible_code := strToInt (strSubstring header 0 first_space)
    if possible_code = 0 then
      strToInt (strSubstring header (first_space + 1) (first_space + 1 + 3))
    else possible_code

/-- The character printed for one decimal digit value (`utoa` digit table,
restricted to base 10; inputs are always ≤ 9 here). -/
def digitChar (d : Nat) : Char :=
  if d = 0 then '0' else if d = 1 then '1' else if d = 2 then '2'
  else if d = 3 then '3' else if d = 4 then '4' else if d = 5 then '5'
  else if d = 6 then '6' else if d = 7 then '7' else if d = 8 then '8'
  else '9'

/-- Fuel-driven decimal printer; the argument shrinks by a factor of ten per
step, so fuel `n + 1` always suffices for `n`. -/
def natDigitsAux : Nat → Nat → List Char
  | 0, _ => []
  | fuel + 1, n =>
    if n < 10 then [digitChar n]
    else natDigitsAux fuel (n / 10) ++ [digitChar (n % 10)]

/-- The decimal digits appended by `String::concat(unsigned int)` (via
`utoa`), used at request.h line 188 for the Content-Length value. -/
def natDigits (n : Nat) : List Char := natDigitsAux (n + 1) n

/-- The request message built in request.h lines 180-195: request line with
the body as a query string for GET, `Host:` header, `Content-Length:` header
for non-GET methods, the raw caller-supplied header block when nonempty, and
a blank line plus the body for non-GET methods.  The source's boolean
`not_get = !method.equals("GET")` is inlined here, so each `not_get`
conditional appears with its branches swapped under `method = "GET"`.
The `additional_headers != NULL` test on an Arduino `String` is another
emptiness test (`equals(NULL)` holds iff the length is 0), so the guard at
line 191 collapses to nonemptiness. -/
def formatRequest (data method base_url path additional_headers : List Char) :
    List Char :=
  method
    ++ (' ' :: path)
    ++ (if method = "GET".toList then '?' :: data else [])
    ++ " HTTP/1.1\n".toList
    ++ "Host: ".toList ++ base_url ++ ['\n']
    ++ (if method = "GET".toList then []
        else "Content-Length: ".toList ++ natDigits data.length ++ ['\n'])
    ++ (if additional_headers = [] then [] else additional_headers)
    ++ (if method = "GET".toList then [] else '\n' :: data)

/-- Environment of one `http_request` call: what the borrowed network client
(EthernetClient / WiFiClient) answers.  `connectOk` is the result of
`client.connect`; `avail t` is the byte count `client.available()` reports
after `t` one-millisecond delay ticks of the wait loop; `stream` is the byte
sequence the read loop will consume, in arrival order; `openAfter` tells
whether the connection is still open when the read loop finds no byte left
(the read loop's `connected()` is open-or-unread-data, per the Arduino
client contract). -/
structure NetEnv where
  connectOk : Bool
  avail : Nat → Nat
  stream : List Char
  openAfter : Bool

/-- The wait loop of request.h lines 206-213 around the process-global
`_wait` counter (line 161):

while (client.available() == 0) { delay(1);
  if (_wait++ > REQUEST_REPLY_WAIT) { _wait = 0; break; } }

`t` is the current delay tick, `w` the current value of `_wait`, `RW` the
`REQUEST_REPLY_WAIT` budget.  Returns (final tick, final `_wait`, whether
the timeout break fired).  Note the post-increment: the old value is
compared, and on timeout `_wait` is reset to 0 before breaking. -/
def waitLoop (avail : Nat → Nat) (RW t w : Nat) : Nat × Nat × Bool :=
  if avail t = 0 then
    if w > RW then (t + 1, 0, true)
    else waitLoop avail RW (t + 1) (w + 1)
  else (t, w, false)
termination_by RW + 1 - w
decreasing_by omega

/-- Outcome of the read loop: `buf` the bytes stored into `header_str` in
order, `idx` the final value of `header_str_i` (where the NUL terminator is
then written), `stops` the number of `NETWORK_STOP` calls issued inside the
loop, `storeIdxs` the buffer indices used by the stores
`header_str[header_str_i++] = c`. -/
structure ReadResult where
  buf : List Char
  idx : Nat
  stops : Nat
  storeIdxs : List Nat

/-- The read loop of request.h lines 218-229:

while (NETWORK_CONNECTED(client)) {
  if (client.available()) { c = client.read();
    if (header_str_i < _HEADER_LEN) header_str[header_str_i++] = c; }
  else NETWORK_STOP(client); }

`pending` is the remaining byte stream, `openFlag` whether the connection
is still open once the data runs out, `i` the current `header_str_i`.
`connected()` is open-or-unread-data, so with bytes pending the loop reads
(dropping bytes once `i` reaches `_HEADER_LEN`); with none pending it stops
the client once if it was still open (after which `connected()` is false)
and exits. -/
def readLoop (pending : List Char) (openFlag : Bool) (i : Nat) : ReadResult :=
  match pending with
  | [] => if openFlag then ⟨[], i, 1, []⟩ else ⟨[], i, 0, []⟩
  | c :: rest =>
    if i < HEADER_LEN then
      let r := readLoop rest openFlag (i + 1)
      ⟨c :: r.buf, r.idx, r.stops, i :: r.storeIdxs⟩
    else readLoop rest openFlag i

/-- Observable outcome of one `http_request` call: the returned status code,
every byte written to the transport, the number of `client.stop()` calls,
the bytes captured into `header_str`, the final value of the global `_wait`
counter, the final wait-loop delay tick, and whether the wait timeout
fired. -/
structure HttpResult where
  code : Int
  writes : List Char
  stops : Nat
  captured : List Char
  waitAfter : Nat
  waitTicks : Nat
  timedOut : Bool

/-- Model of `http_request`, request.h lines 170-253.  `env` stands for the
borrowed `NETWORK_CLIENT`; `RW` is the `REQUEST_REPLY_WAIT` macro (default
100); `wait0` is the value of the process-global `_wait` when the call
starts.  On connect failure the function returns 0 having written nothing.
Otherwise it formats the request, writes it with `client.println` — which,
per Arduino `Print::println`, sends the message followed by a CRLF pair —
runs the wait loop, runs the read loop, NUL-terminates the capture buffer,
stops the client once more, and parses the captured C string. -/
def http_request (data : List Char) (env : NetEnv)
    (method base_url path : List Char) (port : Nat)
    (additional_headers : List Char) (RW wait0 : Nat) : HttpResult :=
  if !env.connectOk then
    ⟨0, [], 0, [], wait0, 0, false⟩
  else
    let request := formatRequest data method base_url path additional_headers
    let wres := waitLoop env.avail RW 0 wait0
    let rres := readLoop env.stream env.openAfter 0
    let header := cstr rres.buf
    { code := parseStatus header
      writes := request ++ ['\r', '\n']
      stops := rres.stops + 1
      captured := rres.buf
      waitAfter := wres.2.1
      waitTicks := wres.1
      timedOut := wres.2.2 }

/-- The HTTP `REQUEST_SEND` macro (request.h lines 258-261):
`0 != http_request(...)`. -/
def REQUEST_SEND (data : List Char) (env : NetEnv)
    (method base_url path : List Char) (port : Nat)
    (additional_headers : List Char) (RW wait0 : Nat) : Bool :=
  (http_request data env method base_url path port additional_headers RW wait0).code != 0

/-- Events observable from the MQTT `REQUEST_SETUP` macro. -/
inductive MqttEvent where
  | setServer
  | connectAttempt (ok : Bool)
  | delayMs (ms : Nat)
deriving DecidableEq, Repr

/-- The retry loop of the MQTT `REQUEST_SETUP` macro (request.h lines
270-277):

while (!client.connected())
  if (client.connect(id, user, pass)) Serial.println(...);
  else { Serial.print(...); delay(1000); }

`connected` is the current PubSubClient connection state; `outcomes` the
results of the successive `connect` attempts the broker environment will
produce (per the PubSubClient contract, a successful `connect` makes
`connected()` true).  Returns the event trace and whether the loop has
terminated within the modeled attempts. -/
def connectRetryLoop (connected : Bool) (outcomes : List Bool) :
    List MqttEvent × Bool :=
  if connected then ([], true)
  else
    match outcomes with
    | [] => ([], false)
    | ok :: rest =>
      if ok then ([MqttEvent.connectAttempt true], true)
      else
        let r := connectRetryLoop false rest
        (MqttEvent.connectAttempt false :: MqttEvent.delayMs 1000 :: r.1, r.2)

/-- The MQTT `REQUEST_SETUP` macro (request.h lines 268-277): `setServer`
followed by the connect-retry loop. -/
def REQUEST_SETUP (connected : Bool) (outcomes : List Bool) :
    List MqttEvent × Bool :=
  let r := connectRetryLoop connected outcomes
  (MqttEvent.setServer :: r.1, r.2)

/-! Helper lemmas about the read loop. -/

theorem readLoop_buf (pending : List Char) (openFlag : Bool) :
    ∀ i, (readLoop pending openFlag i).buf = pending.take (HEADER_LEN - i) := by
  induction pending with
  | nil => intro i; cases openFlag <;> simp [readLoop]
  | cons c rest ih =>
    intro i
    by_cases h : i < HEADER_LEN
    · have hsub : HEADER_LEN - i = (HEADER_LEN - (i + 1)) + 1 := by omega
      simp only [readLoop, if_pos h, ih (i + 1), hsub, List.take_succ_cons]
    · have hz : HEADER_LEN - i = 0 := by omega
      simp only [readLoop, if_neg h, ih i, hz, List.take_zero]

theorem readLoop_stops (pending : List Char) (openFlag : Bool) :
    ∀ i, (readLoop pending openFlag i).stops = if openFlag then 1 else 0 := by
  induction pending with
  | nil => intro i; cases openFlag <;> simp [readLoop]
  | cons c rest ih =>
    intro i
    by_cases h : i < HEADER_LEN
    · simp only [readLoop, if_pos h, ih (i + 1)]
    · simp only [readLoop, if_neg h, ih i]

theorem readLoop_storeIdxs_lt (pending : List Char) (openFlag : Bool) :
    ∀ i, ∀ j ∈ (readLoop pending openFlag i).storeIdxs, j < HEADER_LEN := by
  induction pending with
  | nil => intro i j hj; cases openFlag <;> simp [readLoop] at hj
  | cons c rest ih =>
    intro i j hj
    by_cases h : i < HEADER_LEN
    · simp only [readLoop, if_pos h] at hj
      rcases List.mem_cons.mp hj with rfl | hj2
      · exact h
      · exact ih (i + 1) j hj2
    · simp only [readLoop, if_neg h] at hj
      exact ih i j hj

theorem readLoop_idx (pending : List Char) (openFlag : Bool) :
    ∀ i, (readLoop pending openFlag i).idx =
      i + (readLoop pending openFlag i).storeIdxs.length := by
  induction pending with
  | nil => intro i; cases openFlag <;> simp [readLoop]
  | cons c rest ih =>
    intro i
    by_cases h : i < HEADER_LEN
    · simp only [readLoop, if_pos h, ih (i + 1), List.length_cons]
      omega
    · simp only [readLoop, if_neg h, ih i]

theorem readLoop_idx_le (pending : List Char) (openFlag : Bool) :
    ∀ i, i ≤ HEADER_LEN → (readLoop pending openFlag i).idx ≤ HEADER_LEN := by
  induction pending with
  | nil => intro i hi; cases openFlag <;> simpa [readLoop] using hi
  | cons c rest ih =>
    intro i hi
    by_cases h : i < HEADER_LEN
    · simp only [readLoop, if_pos h]
      exact ih (i + 1) (by omega)
    · simp only [readLoop, if_neg h]
      exact ih i hi

/-! Helper lemmas about the wait loop. -/

theorem waitLoop_noData_snd (avail : Nat → Nat) (RW : Nat)
    (h : ∀ u, avail u = 0) :
    ∀ d t w, RW + 1 - w ≤ d → (waitLoop avail RW t w).2 = (0, true) := by
  intro d
  induction d with
  | zero =>
    intro t w hw
    rw [waitLoop, if_pos (h t), if_pos (by omega)]
  | succ d ih =>
    intro t w hw
    rw [waitLoop, if_pos (h t)]
    by_cases hww : w > RW
    · rw [if_pos hww]
    · rw [if_neg hww]
      exact ih (t + 1) (w + 1) (by omega)

theorem waitLoop_noData_fst (avail : Nat → Nat) (RW : Nat)
    (h : ∀ u, avail u = 0) :
    ∀ d t w, RW + 1 - w = d → w ≤ RW + 1 →
      (waitLoop avail RW t w).1 = t + (RW + 2 - w) := by
  intro d
  induction d with
  | zero =>
    intro t w hd hw
    rw [waitLoop, if_pos (h t), if_pos (by omega)]
    show t + 1 = t + (RW + 2 - w)
    omega
  | succ d ih =>
    intro t w hd hw
    rw [waitLoop, if_pos (h t), if_neg (by omega : ¬ w > RW)]
    rw [ih (t + 1) (w + 1) (by omega) (by omega)]
    omega

theorem waitLoop_avail_now (avail : Nat → Nat) (RW t w : Nat)
    (h : avail t ≠ 0) : waitLoop avail RW t w = (t, w, false) := by
  rw [waitLoop, if_neg h]

theorem waitLoop_arrival (avail : Nat → Nat) (RW k : Nat)
    (h0 : ∀ u, u < k → avail u = 0) (hk : avail k ≠ 0) :
    ∀ d t w, k - t = d → t ≤ k → w + (k - t) ≤ RW + 1 →
      waitLoop avail RW t w = (k, w + (k - t), false) := by
  intro d
  induction d with
  | zero =>
    intro t w hd ht hw
    have hteq : t = k := by omega
    subst hteq
    rw [waitLoop, if_neg hk]
    simp only [Nat.sub_self, Nat.add_zero]
  | succ d ih =>
    intro t w hd ht hw
    have htk : t < k := by omega
    rw [waitLoop, if_pos (h0 t htk), if_neg (by omega : ¬ w > RW)]
    rw [ih (t + 1) (w + 1) (by omega) (by omega) (by omega)]
    have heq : w + 1 + (k - (t + 1)) = w + (k - t) := by omega
    rw [heq]

/-! Unfolding of `http_request` when the connect succeeds. -/

theorem http_request_connected (data : List Char) (env : NetEnv)
    (method base_url path : List Char) (port : Nat)
    (additional_headers : List Char) (RW wait0 : Nat)
    (h : env.connectOk = true) :
    http_request data env method base_url path port additional_headers RW wait0 =
      { code := parseStatus (cstr (env.stream.take HEADER_LEN))
        writes := formatRequest data method base_url path additional_headers ++ ['\r', '\n']
        stops := (if env.openAfter then 1 else 0) + 1
        captured := env.stream.take HEADER_LEN
        waitAfter := (waitLoop env.avail RW 0 wait0).2.1
        waitTicks := (waitLoop env.avail RW 0 wait0).1
        timedOut := (waitLoop env.avail RW 0 wait0).2.2 } := by
  simp only [http_request, h, Bool.not_true, Bool.false_eq_true, if_false,
    readLoop_buf, readLoop_stops, Nat.sub_zero]

/-! Helper lemmas about the string primitives. -/

theorem strIndexOf_eq_neg_one (s : List Char) (c : Char) (h : c ∉ s) :
    strIndexOf s c = -1 := by
  induction s with
  | nil => rfl
  | cons a rest ih =>
    have ha : ¬ a = c := by rintro rfl; exact h (List.mem_cons_self a rest)
    have ht : c ∉ rest := fun hc => h (List.mem_cons_of_mem a hc)
    simp [strIndexOf, if_neg ha, ih ht]

theorem strIndexOf_append (pre rest : List Char) (c : Char) (h : c ∉ pre) :
    strIndexOf (pre ++ c :: rest) c = (pre.length : Int) := by
  induction pre with
  | nil => simp [strIndexOf]
  | cons a t ih =>
    have ha : ¬ a = c := by rintro rfl; exact h (List.mem_cons_self a t)
    have ht : c ∉ t := fun hc => h (List.mem_cons_of_mem a hc)
    have hne : ¬ strIndexOf (t ++ c :: rest) c = -1 := by
      rw [ih ht]; omega
    have hstep : strIndexOf ((a :: t) ++ c :: rest) c =
        if a = c then 0
        else if strIndexOf (t ++ c :: rest) c = -1 then -1
        else strIndexOf (t ++ c :: rest) c + 1 := rfl
    rw [hstep, if_neg ha, if_neg hne, ih ht, List.length_cons]
    push_cast
    ring

theorem mem_of_mem_strSubstring {c : Char} {s : List Char} {l r : Nat}
    (h : c ∈ strSubstring s l r) : c ∈ s := by
  unfold strSubstring at h
  exact (List.take_sublist _ _).subset ((List.drop_sublist _ _).subset h)

theorem mem_of_mem_cstr {c : Char} {s : List Char} (h : c ∈ cstr s) : c ∈ s :=
  (List.takeWhile_sublist _).subset h

theorem digitsAux_nonneg (s : List Char) (acc : Nat) :
    0 ≤ (digitsAux s acc : Int) := Int.ofNat_nonneg _

theorem atol_nonneg (s : List Char) (h : '-' ∉ s) : 0 ≤ atol s := by
  unfold atol
  cases hds : s.dropWhile isSpaceC with
  | nil => simp [atolSigned]
  | cons c rest =>
    have hc : ¬ c = '-' := by
      rintro rfl
      exact h ((List.dropWhile_sublist _).subset (hds ▸ List.mem_cons_self _ _))
    simp only [atolSigned]
    rw [if_neg hc]
    by_cases hp : c = '+'
    · rw [if_pos hp]; exact Int.ofNat_nonneg _
    · rw [if_neg hp]; exact Int.ofNat_nonneg _

theorem intToByte_neg_one : intToByte (-1) = 255 := by decide

theorem intToByte_coe (n : Nat) (h : n < 256) : intToByte (n : Int) = n := by
  unfold intToByte
  rw [Int.emod_eq_of_lt (Int.ofNat_nonneg n) (by exact_mod_cast h)]
  simp

/-! Helper lemmas about the parse phase. -/

theorem parseStatus_no_space (header : List Char) (h : ' ' ∉ header) :
    parseStatus header = 0 := by
  unfold parseStatus
  rw [strIndexOf_eq_neg_one header ' ' h, intToByte_neg_one]
  rw [if_pos (Or.inr (by norm_num [HEADER_LEN]))]

theorem parseStatus_nonneg (header : List Char) (h : '-' ∉ header) :
    0 ≤ parseStatus header := by
  unfold parseStatus
  by_cases hg : ((intToByte (strIndexOf header ' ') : Int) = -1 ∨
      intToByte (strIndexOf header ' ') > HEADER_LEN)
  · rw [if_pos hg]
  · rw [if_neg hg]
    have h0 : '-' ∉ strSubstring header 0 (intToByte (strIndexOf header ' ')) :=
      fun hc => h (mem_of_mem_strSubstring hc)
    have h1 : '-' ∉ strSubstring header (intToByte (strIndexOf header ' ') + 1)
        (intToByte (strIndexOf header ' ') + 1 + 3) :=
      fun hc => h (mem_of_mem_strSubstring hc)
    by_cases hz : strToInt (strSubstring header 0 (intToByte (strIndexOf header ' '))) = 0
    · rw [if_pos hz]
      exact atol_nonneg _ h1
    · rw [if_neg hz]
      exact atol_nonneg _ h0

/-! Helper lemmas about the decimal printer. -/

theorem digitChar_code (d : Nat) :
    48 ≤ (digitChar d).toNat ∧ (digitChar d).toNat ≤ 57 := by
  unfold digitChar
  split_ifs <;> decide

theorem natDigitsAux_code :
    ∀ fuel n c, c ∈ natDigitsAux fuel n → 48 ≤ c.toNat ∧ c.toNat ≤ 57 := by
  intro fuel
  induction fuel with
  | zero => intro n c hc; simp [natDigitsAux] at hc
  | succ fuel ih =>
    intro n c hc
    unfold natDigitsAux at hc
    by_cases h : n < 10
    · rw [if_pos h] at hc
      have : c = digitChar n := by simpa using hc
      exact this ▸ digitChar_code n
    · rw [if_neg h] at hc
      rcases List.mem_append.mp hc with h1 | h2
      · exact ih (n / 10) c h1
      · have : c = digitChar (n % 10) := by simpa using h2
        exact this ▸ digitChar_code (n % 10)

theorem natDigits_code (n : Nat) (c : Char) (hc : c ∈ natDigits n) :
    48 ≤ c.toNat ∧ c.toNat ≤ 57 := natDigitsAux_code (n + 1) n c hc

/-! Splitting a byte list at its first occurrence of a character. -/

theorem not_mem_takeWhile_ne (c : Char) (p : List Char) :
    c ∉ p.takeWhile (fun x => x ≠ c) := by
  intro hc
  have := List.mem_takeWhile_imp hc
  simp at this

theorem split_at_first (c : Char) (p : List Char) (h : c ∈ p) :
    p = p.takeWhile (fun x => x ≠ c) ++
      c :: (p.dropWhile (fun x => x ≠ c)).tail := by
  induction p with
  | nil => cases h
  | cons a rest ih =>
    by_cases ha : a = c
    · subst ha
      simp [List.takeWhile_cons, List.dropWhile_cons]
    · have hr : c ∈ rest := by
        rcases List.mem_cons.mp h with h1 | h2
        · exact absurd h1.symm ha
        · exact h2
      have hna : (fun x => x ≠ c) a = true := by simp [ha]
      calc a :: rest
          = a :: (rest.takeWhile (fun x => x ≠ c) ++
              c :: (rest.dropWhile (fun x => x ≠ c)).tail) := by rw [← ih hr]
        _ = (a :: rest).takeWhile (fun x => x ≠ c) ++
              c :: ((a :: rest).dropWhile (fun x => x ≠ c)).tail := by
            simp [List.takeWhile_cons, List.dropWhile_cons, hna]

theorem cstr_append_cons (pre post : List Char) (hnul : '\x00' ∉ pre) :
    cstr (pre ++ ' ' :: post) = pre ++ ' ' :: cstr post := by
  unfold cstr
  induction pre with
  | nil => simp [List.takeWhile_cons]
  | cons a rest ih =>
    have ha : a ≠ '\x00' := by rintro rfl; exact hnul (List.mem_cons_self _ _)
    have ha' : (decide (a ≠ '\x00')) = true := by simp [ha]
    have hrest : '\x00' ∉ rest := fun hc => hnul (List.mem_cons_of_mem a hc)
    simp only [List.cons_append, List.takeWhile_cons, ha', if_pos rfl, ite_true]
    rw [ih hrest]

theorem takeWhile_take_comm (p : Char → Bool) :
    ∀ (l : List Char) (n : Nat), (l.takeWhile p).take n = (l.take n).takeWhile p := by
  intro l
  induction l with
  | nil => intro n; simp
  | cons a t ih =>
    intro n
    cases n with
    | zero => simp
    | succ n =>
      by_cases hp : p a
      · simp [List.takeWhile_cons, hp, List.take_succ_cons, ih n]
      · simp [List.takeWhile_cons, hp, List.take_succ_cons]

/-! Extracting the two substrings the parse phase takes. -/

theorem strSubstring_before (pre tail2 : List Char) :
    strSubstring (pre ++ tail2) 0 pre.length = pre := by
  unfold strSubstring
  simp [List.take_append_eq_append_take]

theorem strSubstring_after (pre post : List Char) (c : Char) :
    strSubstring (pre ++ c :: post) (pre.length + 1) (pre.length + 1 + 3) =
      post.take 3 := by
  unfold strSubstring
  rw [if_neg (by omega), if_neg (by omega)]
  show List.drop (pre.length + 1)
      (List.take (pre.length + 1 + 3) (pre ++ c :: post)) = post.take 3
  rw [List.take_append_eq_append_take]
  rw [List.take_of_length_le (by omega : pre.length ≤ pre.length + 1 + 3)]
  have h1 : pre.length + 1 + 3 - pre.length = 4 := by omega
  rw [h1]
  have h2 : List.take 4 (c :: post) = c :: List.take 3 post := rfl
  rw [h2]
  rw [List.drop_append_eq_append_drop]
  rw [List.drop_eq_nil_of_le (by omega : pre.length ≤ pre.length + 1)]
  have h4 : pre.length + 1 - pre.length = 1 := by omega
  rw [h4]
  simp

/-- Core parse-phase computation at a split point: the captured bytes are
`pre ++ ' ' :: post` with no space and no NUL in `pre`, so the code finds the
first space at `pre.length`, tries `pre` as a number, and falls back to the
3 bytes after the space (read as a C string). -/
theorem parseStatus_split (pre post : List Char)
    (hsp : ' ' ∉ pre) (hnul : '\x00' ∉ pre)
    (hlen : pre.length + 1 + post.length ≤ 49) :
    parseStatus (cstr (pre ++ ' ' :: post)) =
      if strToInt pre = 0 then strToInt (cstr (post.take 3)) else strToInt pre := by
  have hdr : cstr (pre ++ ' ' :: post) = pre ++ ' ' :: cstr post :=
    cstr_append_cons pre post hnul
  rw [hdr]
  unfold parseStatus
  rw [strIndexOf_append pre (cstr post) ' ' hsp]
  rw [intToByte_coe pre.length (by omega)]
  rw [if_neg (by
    push_neg
    constructor
    · omega
    · simp only [HEADER_LEN]; omega)]
  rw [strSubstring_before pre (' ' :: cstr post)]
  rw [strSubstring_after pre (cstr post) ' ']
  have hpost : (cstr post).take 3 = cstr (post.take 3) := by
    unfold cstr
    exact takeWhile_take_comm _ post 3
  rw [hpost]

/-! Helper lemma about the MQTT retry loop. -/

theorem connectRetryLoop_replicate (k : Nat) (rest : List Bool) :
    connectRetryLoop false (List.replicate k false ++ true :: rest) =
      ((List.replicate k [MqttEvent.connectAttempt false, MqttEvent.delayMs 1000]).flatten
        ++ [MqttEvent.connectAttempt true], true) := by
  induction k with
  | zero => simp [connectRetryLoop]
  | succ k ih =>
    simp only [List.replicate_succ, List.cons_append, connectRetryLoop,
      Bool.false_eq_true, if_false, List.flatten_cons, List.append_assoc]
    simp [ih]

/-! The claims. -/

/-- C1 (amended): for every captured response header prefix (the first
49 response bytes) that contains a space and has no NUL byte before its
first space, if the bytes before the first space parse to a nonzero
integer then `http_request` returns that integer as the status code
(`"200 OK\n"` yields 200); otherwise the 3 bytes immediately after the
first space, read as a C string, are parsed as an integer and returned
(`"HTTP/1.1 404 Not Found\n"` yields 404, 0 if unparsable).  The no-NUL
hypothesis is what the counterexample forces: a NUL before the first
space truncates `String(header_str)` before the space is found. -/
theorem C1_status_from_first_space
    (data method base_url path additional_headers : List Char)
    (port RW wait0 : Nat) (env : NetEnv)
    (henv : env.connectOk = true)
    (hsp : ' ' ∈ env.stream.take HEADER_LEN)
    (hnul : '\x00' ∉ (env.stream.take HEADER_LEN).takeWhile (fun x => x ≠ ' ')) :
    (http_request data env method base_url path port additional_headers RW wait0).code =
      if strToInt ((env.stream.take HEADER_LEN).takeWhile (fun x => x ≠ ' ')) = 0
      then strToInt (cstr
        (((env.stream.take HEADER_LEN).dropWhile (fun x => x ≠ ' ')).tail.take 3))
      else strToInt ((env.stream.take HEADER_LEN).takeWhile (fun x => x ≠ ' ')) := by
  rw [http_request_connected data env method base_url path port additional_headers
    RW wait0 henv]
  show parseStatus (cstr (env.stream.take HEADER_LEN)) = _
  have hsplit := split_at_first ' ' (env.stream.take HEADER_LEN) hsp
  have hplen : (env.stream.take HEADER_LEN).length ≤ 49 := by
    simp only [List.length_take, HEADER_LEN]
    omega
  have hlen2 : ((env.stream.take HEADER_LEN).takeWhile (fun x => x ≠ ' ')).length + 1 +
      ((env.stream.take HEADER_LEN).dropWhile (fun x => x ≠ ' ')).tail.length ≤ 49 := by
    have hl := congrArg List.length hsplit
    simp only [List.length_append, List.length_cons] at hl
    omega
  conv_lhs => rw [hsplit]
  rw [parseStatus_split _ _ (not_mem_takeWhile_ne ' ' _) hnul hlen2]

/-- C1 witness: a concrete `"HTTP/1.1 404 Not Found\n"` response satisfies
the hypotheses, and the theorem applies. -/
theorem C1_status_witness :
    (' ' ∈ ("HTTP/1.1 404 Not Found\n".toList).take HEADER_LEN) ∧
    ('\x00' ∉ (("HTTP/1.1 404 Not Found\n".toList).take HEADER_LEN).takeWhile
      (fun x => x ≠ ' ')) ∧
    (http_request ("x".toList)
      ⟨true, fun _ => 1, "HTTP/1.1 404 Not Found\n".toList, true⟩
      ("GET".toList) ("h.tld".toList) ("/p".toList) 80 [] 100 0).code =
      (if strToInt ((("HTTP/1.1 404 Not Found\n".toList).take HEADER_LEN).takeWhile
          (fun x => x ≠ ' ')) = 0
       then strToInt (cstr (((("HTTP/1.1 404 Not Found\n".toList).take
          HEADER_LEN).dropWhile (fun x => x ≠ ' ')).tail.take 3))
       else strToInt ((("HTTP/1.1 404 Not Found\n".toList).take HEADER_LEN).takeWhile
          (fun x => x ≠ ' '))) :=
  ⟨by decide, by decide,
    C1_status_from_first_space ("x".toList) ("GET".toList) ("h.tld".toList)
      ("/p".toList) [] 80 100 0
      ⟨true, fun _ => 1, "HTTP/1.1 404 Not Found\n".toList, true⟩
      rfl (by decide) (by decide)⟩

/-- C1 counterexample: with response bytes `"\x00 200"`, the captured prefix
contains a space, the bytes before the first space parse to 0 (not a nonzero
integer), and the 3 bytes after the first space are `"200"`, so the claim as
stated requires status 200; but the NUL ends the C string built from the
buffer before the space, `indexOf` fails, and the code returns 0. -/
theorem C1_status_counterexample :
    (' ' ∈ (('\x00' :: " 200".toList).take HEADER_LEN)) ∧
    strToInt ((('\x00' :: " 200".toList).take HEADER_LEN).takeWhile
      (fun x => x ≠ ' ')) = 0 ∧
    strToInt (((('\x00' :: " 200".toList).take HEADER_LEN).dropWhile
      (fun x => x ≠ ' ')).tail.take 3) = 200 ∧
    (http_request ("x".toList) ⟨true, fun _ => 1, '\x00' :: " 200".toList, true⟩
      ("GET".toList) ("h.tld".toList) ("/p".toList) 80 [] 100 0).code = 0 :=
  ⟨by decide, by decide, by decide, by decide⟩

/-- C2: when `Transport.connect` fails, `http_request` returns status code 0,
`REQUEST_SEND` returns false, and no byte is ever written to the
transport. -/
theorem C2_connect_failure_no_write
    (data method base_url path additional_headers : List Char)
    (port RW wait0 : Nat) (env : NetEnv) (h : env.connectOk = false) :
    (http_request data env method base_url path port additional_headers RW wait0).code = 0 ∧
    (http_request data env method base_url path port additional_headers RW wait0).writes = [] ∧
    REQUEST_SEND data env method base_url path port additional_headers RW wait0 = false := by
  unfold REQUEST_SEND http_request
  rw [h]
  simp

/-- C2 witness: concrete failing-connect environment. -/
theorem C2_connect_failure_witness :
    (⟨false, fun _ => 0, [], false⟩ : NetEnv).connectOk = false ∧
    ((http_request ("x".toList) ⟨false, fun _ => 0, [], false⟩ ("GET".toList)
        ("h".toList) ("/".toList) 80 [] 100 0).code = 0 ∧
      (http_request ("x".toList) ⟨false, fun _ => 0, [], false⟩ ("GET".toList)
        ("h".toList) ("/".toList) 80 [] 100 0).writes = [] ∧
      REQUEST_SEND ("x".toList) ⟨false, fun _ => 0, [], false⟩ ("GET".toList)
        ("h".toList) ("/".toList) 80 [] 100 0 = false) :=
  ⟨rfl, C2_connect_failure_no_write ("x".toList) ("GET".toList) ("h".toList)
    ("/".toList) [] 80 100 0 ⟨false, fun _ => 0, [], false⟩ rfl⟩

/-- C3: when the captured header prefix (at most 49 bytes) contains no space
character, `http_request` returns status code 0. -/
theorem C3_no_space_zero
    (data method base_url path additional_headers : List Char)
    (port RW wait0 : Nat) (env : NetEnv)
    (h : ' ' ∉ env.stream.take HEADER_LEN) :
    (http_request data env method base_url path port additional_headers RW wait0).code = 0 := by
  by_cases hc : env.connectOk = true
  · rw [http_request_connected data env method base_url path port
      additional_headers RW wait0 hc]
    show parseStatus (cstr (env.stream.take HEADER_LEN)) = 0
    exact parseStatus_no_space _ (fun hm => h (mem_of_mem_cstr hm))
  · unfold http_request
    rw [Bool.not_eq_true] at hc
    rw [hc]
    simp

/-- C3 witness: a spaceless response yields 0. -/
theorem C3_no_space_witness :
    (' ' ∉ ("HelloWorld\n".toList).take HEADER_LEN) ∧
    (http_request ("x".toList) ⟨true, fun _ => 1, "HelloWorld\n".toList, true⟩
      ("GET".toList) ("h".toList) ("/".toList) 80 [] 100 0).code = 0 :=
  ⟨by decide, C3_no_space_zero ("x".toList) ("GET".toList) ("h".toList)
    ("/".toList) [] 80 100 0 ⟨true, fun _ => 1, "HelloWorld\n".toList, true⟩
    (by decide)⟩

/-- C4: for every method other than `"GET"` and every body, the formatted
request message contains a `Content-Length` header whose value is exactly
the decimal byte length of the body. -/
theorem C4_content_length
    (data method base_url path additional_headers : List Char)
    (h : method ≠ "GET".toList) :
    ∃ l r, formatRequest data method base_url path additional_headers =
      l ++ ("Content-Length: ".toList ++ natDigits data.length ++ ['\n']) ++ r := by
  refine ⟨method ++ (' ' :: path) ++ " HTTP/1.1\n".toList ++ "Host: ".toList ++
      base_url ++ ['\n'],
    (if additional_headers = [] then [] else additional_headers) ++ ('\n' :: data), ?_⟩
  unfold formatRequest
  rw [if_neg h, if_neg h, if_neg h]
  simp [List.append_assoc]

/-- C4 witness: `"POST"` with a 2-byte body. -/
theorem C4_content_length_witness :
    ("POST".toList ≠ "GET".toList) ∧
    ∃ l r, formatRequest ("ab".toList) ("POST".toList) ("h".toList) ("/p".toList) [] =
      l ++ ("Content-Length: ".toList ++ natDigits (("ab".toList).length) ++ ['\n']) ++ r :=
  ⟨by decide, C4_content_length ("ab".toList) ("POST".toList) ("h".toList)
    ("/p".toList) [] (by decide)⟩

/-- C5 (amended): the claim "the status code is never negative" fails
(counterexample below); it holds for every response whose captured 49-byte
prefix contains no minus sign, which is the amendment the counterexample
forces. -/
theorem C5_nonneg_without_minus
    (data method base_url path additional_headers : List Char)
    (port RW wait0 : Nat) (env : NetEnv)
    (h : '-' ∉ env.stream.take HEADER_LEN) :
    0 ≤ (http_request data env method base_url path port additional_headers RW wait0).code := by
  by_cases hc : env.connectOk = true
  · rw [http_request_connected data env method base_url path port
      additional_headers RW wait0 hc]
    show 0 ≤ parseStatus (cstr (env.stream.take HEADER_LEN))
    exact parseStatus_nonneg _ (fun hm => h (mem_of_mem_cstr hm))
  · unfold http_request
    rw [Bool.not_eq_true] at hc
    rw [hc]
    simp

/-- C5 witness: an ordinary `"200 OK"` response has a nonnegative status. -/
theorem C5_nonneg_witness :
    ('-' ∉ ("200 OK".toList).take HEADER_LEN) ∧
    0 ≤ (http_request ("x".toList) ⟨true, fun _ => 1, "200 OK".toList, true⟩
      ("GET".toList) ("h".toList) ("/".toList) 80 [] 100 0).code :=
  ⟨by decide, C5_nonneg_without_minus ("x".toList) ("GET".toList) ("h".toList)
    ("/".toList) [] 80 100 0 ⟨true, fun _ => 1, "200 OK".toList, true⟩
    (by decide)⟩

/-- C5 counterexample: the response bytes `"-5 X"` make `http_request`
return -5, a negative status code, because `atol` accepts a leading minus
sign and the code returns any nonzero parse of the token before the first
space. -/
theorem C5_negative_counterexample :
    (http_request ("x".toList) ⟨true, fun _ => 1, "-5 X".toList, true⟩
      ("GET".toList) ("h".toList) ("/".toList) 80 [] 100 0).code = -5 ∧
    (http_request ("x".toList) ⟨true, fun _ => 1, "-5 X".toList, true⟩
      ("GET".toList) ("h".toList) ("/".toList) 80 [] 100 0).code < 0 :=
  ⟨by decide, by decide⟩

/-- C6 (amended): when no byte ever becomes available, the wait loop times
out, the read phase still executes (it still captures whatever the stream
later holds and NUL-terminates the buffer), and `client.stop()` is invoked
twice when the connection is still open — once by the read loop's idle
branch and once unconditionally after the loop — and once when it is
already closed; never zero times.  The claim's "exactly once" fails
(counterexample below); `stop` being idempotent on Arduino clients, the
transport still ends closed with no leak. -/
theorem C6_timeout_reads_and_stops
    (data method base_url path additional_headers : List Char)
    (port RW wait0 : Nat) (env : NetEnv)
    (henv : env.connectOk = true) (hnd : ∀ u, env.avail u = 0) :
    (http_request data env method base_url path port additional_headers RW wait0).timedOut = true ∧
    (http_request data env method base_url path port additional_headers RW wait0).captured =
      env.stream.take HEADER_LEN ∧
    (http_request data env method base_url path port additional_headers RW wait0).stops =
      (if env.openAfter then 2 else 1) := by
  rw [http_request_connected data env method base_url path port
    additional_headers RW wait0 henv]
  refine ⟨?_, rfl, ?_⟩
  · show (waitLoop env.avail RW 0 wait0).2.2 = true
    rw [waitLoop_noData_snd env.avail RW hnd (RW + 1 - wait0) 0 wait0 (le_refl _)]
  · show (if env.openAfter then 1 else 0) + 1 = (if env.openAfter then 2 else 1)
    by_cases ho : env.openAfter <;> simp [ho]

/-- C6 witness: concrete silent environment with the connection open. -/
theorem C6_timeout_witness :
    ((⟨true, fun _ => 0, [], true⟩ : NetEnv).connectOk = true ∧
      (∀ u, (⟨true, fun _ => 0, [], true⟩ : NetEnv).avail u = 0)) ∧
    ((http_request ("x".toList) ⟨true, fun _ => 0, [], true⟩ ("GET".toList)
        ("h".toList) ("/".toList) 80 [] 100 0).timedOut = true ∧
      (http_request ("x".toList) ⟨true, fun _ => 0, [], true⟩ ("GET".toList)
        ("h".toList) ("/".toList) 80 [] 100 0).captured =
        (⟨true, fun _ => 0, [], true⟩ : NetEnv).stream.take HEADER_LEN ∧
      (http_request ("x".toList) ⟨true, fun _ => 0, [], true⟩ ("GET".toList)
        ("h".toList) ("/".toList) 80 [] 100 0).stops =
        (if (⟨true, fun _ => 0, [], true⟩ : NetEnv).openAfter then 2 else 1)) :=
  ⟨⟨rfl, fun _ => rfl⟩,
    C6_timeout_reads_and_stops ("x".toList) ("GET".toList) ("h".toList)
      ("/".toList) [] 80 100 0 ⟨true, fun _ => 0, [], true⟩ rfl (fun _ => rfl)⟩

/-- C6 counterexample: in a run where no byte ever arrives and the
connection is still open, the code calls `client.stop()` twice before
returning, not exactly once: once in the read loop's idle branch (line 228)
and once after the loop (line 231). -/
theorem C6_double_stop_counterexample :
    (http_request ("x".toList) ⟨true, fun _ => 0, [], true⟩ ("GET".toList)
      ("h".toList) ("/".toList) 80 [] 100 0).timedOut = true ∧
    (http_request ("x".toList) ⟨true, fun _ => 0, [], true⟩ ("GET".toList)
      ("h".toList) ("/".toList) 80 [] 100 0).stops = 2 := by
  constructor
  · rw [http_request_connected ("x".toList) ⟨true, fun _ => 0, [], true⟩
      ("GET".toList) ("h".toList) ("/".toList) 80 [] 100 0 rfl]
    show (waitLoop (fun _ => 0) 100 0 0).2.2 = true
    rw [waitLoop_noData_snd (fun _ => 0) 100 (fun _ => rfl) 101 0 0 (by omega)]
  · decide

/-- C7 (amended): the request message itself is `'\n'`-separated with no
carriage return whenever the caller-supplied fields contain none, but the
full byte sequence written to the transport is the message followed by the
CRLF pair appended by `client.println`, so it always contains exactly that
one final `'\r'` — the claim's "no carriage-return character ever" fails
(counterexample below). -/
theorem C7_message_newline_only
    (data method base_url path additional_headers : List Char)
    (port RW wait0 : Nat) (env : NetEnv) (henv : env.connectOk = true)
    (h1 : '\r' ∉ data) (h2 : '\r' ∉ method) (h3 : '\r' ∉ base_url)
    (h4 : '\r' ∉ path) (h5 : '\r' ∉ additional_headers) :
    (http_request data env method base_url path port additional_headers RW wait0).writes =
      formatRequest data method base_url path additional_headers ++ ['\r', '\n'] ∧
    '\r' ∉ formatRequest data method base_url path additional_headers := by
  constructor
  · rw [http_request_connected data env method base_url path port
      additional_headers RW wait0 henv]
  · intro hm
    unfold formatRequest at hm
    simp only [List.mem_append] at hm
    rcases hm with ((((((((hm | hm) | hm) | hm) | hm) | hm) | hm) | hm) | hm) | hm
    · exact h2 hm
    · rcases List.mem_cons.mp hm with he | hm
      · exact absurd he (by decide)
      · exact h4 hm
    · split at hm
      · rcases List.mem_cons.mp hm with he | hm
        · exact absurd he (by decide)
        · exact h1 hm
      · simp at hm
    · exact absurd hm (by decide)
    · exact absurd hm (by decide)
    · exact h3 hm
    · exact absurd hm (by decide)
    · split at hm
      · simp at hm
      · simp only [List.mem_append] at hm
        rcases hm with (hm | hm) | hm
        · exact absurd hm (by decide)
        · have hb := natDigits_code data.length '\r' hm
          have h13 : ('\r').toNat = 13 := rfl
          omega
        · exact absurd hm (by decide)
    · split at hm
      · simp at hm
      · exact h5 hm
    · split at hm
      · simp at hm
      · rcases List.mem_cons.mp hm with he | hm
        · exact absurd he (by decide)
        · exact h1 hm

/-- C7 witness: concrete CR-free fields. -/
theorem C7_message_witness :
    ('\r' ∉ ("x".toList) ∧ '\r' ∉ ("POST".toList) ∧ '\r' ∉ ("h.tld".toList) ∧
      '\r' ∉ ("/p".toList) ∧ '\r' ∉ ("A: b".toList)) ∧
    ((http_request ("x".toList) ⟨true, fun _ => 1, "200 OK".toList, true⟩
        ("POST".toList) ("h.tld".toList) ("/p".toList) 80 ("A: b".toList) 100 0).writes =
      formatRequest ("x".toList) ("POST".toList) ("h.tld".toList) ("/p".toList)
        ("A: b".toList) ++ ['\r', '\n'] ∧
      '\r' ∉ formatRequest ("x".toList) ("POST".toList) ("h.tld".toList)
        ("/p".toList) ("A: b".toList)) :=
  ⟨⟨by decide, by decide, by decide, by decide, by decide⟩,
    C7_message_newline_only ("x".toList) ("POST".toList) ("h.tld".toList)
      ("/p".toList) ("A: b".toList) 80 100 0
      ⟨true, fun _ => 1, "200 OK".toList, true⟩ rfl
      (by decide) (by decide) (by decide) (by decide) (by decide)⟩

/-- C7 counterexample: even with CR-free inputs, the byte sequence written
to the transport contains a carriage return — the one `client.println`
appends after the message. -/
theorem C7_carriage_return_counterexample :
    '\r' ∈ (http_request ("x".toList) ⟨true, fun _ => 1, "200 OK".toList, true⟩
      ("GET".toList) ("h".toList) ("/".toList) 80 [] 100 0).writes := by decide

/-- C8 (amended): the wait counter is a single process-wide variable reused
across `http_request` calls (modeled by threading `wait0`/`waitAfter`), but
the residual-state leak occurs when a call's wait loop exits because a byte
arrived after `k > 0` delay ticks — the counter then keeps the value `k`,
and a following call that never receives data times out after strictly
fewer delay ticks than one starting from a zero counter.  When the timeout
itself fires the counter is instead reset to 0 (counterexample below), the
opposite of what the claim states. -/
theorem C8_wait_counter_leak
    (data method base_url path additional_headers : List Char)
    (port RW k : Nat) (env1 : NetEnv)
    (henv : env1.connectOk = true)
    (h0 : ∀ u, u < k → env1.avail u = 0) (hk : env1.avail k ≠ 0)
    (hkpos : 0 < k) (hkle : k ≤ RW + 1) :
    (http_request data env1 method base_url path port additional_headers RW 0).timedOut = false ∧
    (http_request data env1 method base_url path port additional_headers RW 0).waitAfter = k ∧
    (∀ env2 : NetEnv, env2.connectOk = true → (∀ u, env2.avail u = 0) →
      (http_request data env2 method base_url path port additional_headers RW k).timedOut = true ∧
      (http_request data env2 method base_url path port additional_headers RW k).waitTicks <
        (http_request data env2 method base_url path port additional_headers RW 0).waitTicks) := by
  have hw1 : waitLoop env1.avail RW 0 0 = (k, k, false) := by
    have := waitLoop_arrival env1.avail RW k h0 hk k 0 0 (by omega) (by omega) (by omega)
    simpa using this
  refine ⟨?_, ?_, ?_⟩
  · rw [http_request_connected data env1 method base_url path port
      additional_headers RW 0 henv]
    show (waitLoop env1.avail RW 0 0).2.2 = false
    rw [hw1]
  · rw [http_request_connected data env1 method base_url path port
      additional_headers RW 0 henv]
    show (waitLoop env1.avail RW 0 0).2.1 = k
    rw [hw1]
  · intro env2 henv2 hnd2
    rw [http_request_connected data env2 method base_url path port
      additional_headers RW k henv2,
      http_request_connected data env2 method base_url path port
      additional_headers RW 0 henv2]
    constructor
    · show (waitLoop env2.avail RW 0 k).2.2 = true
      rw [waitLoop_noData_snd env2.avail RW hnd2 (RW + 1 - k) 0 k (le_refl _)]
    · show (waitLoop env2.avail RW 0 k).1 < (waitLoop env2.avail RW 0 0).1
      rw [waitLoop_noData_fst env2.avail RW hnd2 (RW + 1 - k) 0 k rfl (by omega),
        waitLoop_noData_fst env2.avail RW hnd2 (RW + 1 - 0) 0 0 rfl (by omega)]
      omega

/-- C8 witness: a byte arriving after one delay tick leaves residue 1,
which shortens the following silent call's wait. -/
theorem C8_wait_witness :
    ((⟨true, fun t => t, [], true⟩ : NetEnv).connectOk = true ∧
      (∀ u, u < 1 → (⟨true, fun t => t, [], true⟩ : NetEnv).avail u = 0) ∧
      (⟨true, fun t => t, [], true⟩ : NetEnv).avail 1 ≠ 0) ∧
    ((http_request ("x".toList) ⟨true, fun t => t, [], true⟩ ("GET".toList)
        ("h".toList) ("/".toList) 80 [] 2 0).timedOut = false ∧
      (http_request ("x".toList) ⟨true, fun t => t, [], true⟩ ("GET".toList)
        ("h".toList) ("/".toList) 80 [] 2 0).waitAfter = 1 ∧
      (∀ env2 : NetEnv, env2.connectOk = true → (∀ u, env2.avail u = 0) →
        (http_request ("x".toList) env2 ("GET".toList) ("h".toList) ("/".toList)
          80 [] 2 1).timedOut = true ∧
        (http_request ("x".toList) env2 ("GET".toList) ("h".toList) ("/".toList)
          80 [] 2 1).waitTicks <
          (http_request ("x".toList) env2 ("GET".toList) ("h".toList) ("/".toList)
            80 [] 2 0).waitTicks)) :=
  ⟨⟨rfl, fun u hu => by show u = 0; omega, by decide⟩,
    C8_wait_counter_leak ("x".toList) ("GET".toList) ("h".toList) ("/".toList)
      [] 80 2 1 ⟨true, fun t => t, [], true⟩ rfl
      (fun u hu => by show u = 0; omega) (by decide) (by decide) (by decide)⟩

/-- C8 counterexample: in a call in which the wait timeout fires, the
counter does not keep a residual value — the code resets it to 0 before
breaking, so the next call gets the full budget.  (Starting counter 0,
budget 2, no data ever: the call times out and the counter ends at 0.) -/
theorem C8_reset_counterexample :
    (http_request ("x".toList) ⟨true, fun _ => 0, [], true⟩ ("GET".toList)
      ("h".toList) ("/".toList) 80 [] 2 0).timedOut = true ∧
    (http_request ("x".toList) ⟨true, fun _ => 0, [], true⟩ ("GET".toList)
      ("h".toList) ("/".toList) 80 [] 2 0).waitAfter = 0 := by
  rw [http_request_connected ("x".toList) ⟨true, fun _ => 0, [], true⟩
    ("GET".toList) ("h".toList) ("/".toList) 80 [] 2 0 rfl]
  constructor
  · show (waitLoop (fun _ => 0) 2 0 0).2.2 = true
    rw [waitLoop_noData_snd (fun _ => 0) 2 (fun _ => rfl) 3 0 0 (by omega)]
  · show (waitLoop (fun _ => 0) 2 0 0).2.1 = 0
    rw [waitLoop_noData_snd (fun _ => 0) 2 (fun _ => rfl) 3 0 0 (by omega)]

/-- C9: on a disconnected client, the MQTT `REQUEST_SETUP` loop returns
(with the terminating flag) exactly when a connect attempt succeeds: with
`k` failed attempts before the first success, its trace is `setServer`
followed by `k` failure/`delay(1000)` pairs — exactly one fixed delay after
each failed attempt — ending with the successful attempt; and the loop can
only have terminated if some attempt succeeded. -/
theorem C9_mqtt_setup_retry (k : Nat) (rest : List Bool) :
    (REQUEST_SETUP false (List.replicate k false ++ true :: rest) =
      (MqttEvent.setServer ::
        ((List.replicate k [MqttEvent.connectAttempt false, MqttEvent.delayMs 1000]).flatten
          ++ [MqttEvent.connectAttempt true]), true)) ∧
    (∀ outcomes : List Bool, (connectRetryLoop false outcomes).2 = true →
      true ∈ outcomes) := by
  constructor
  · simp only [REQUEST_SETUP]
    rw [connectRetryLoop_replicate]
  · intro outcomes
    induction outcomes with
    | nil => intro h; simp [connectRetryLoop] at h
    | cons ok tail ih =>
      intro h
      by_cases hok : ok = true
      · subst hok
        exact List.mem_cons_self _ _
      · have hok' : ok = false := by simpa using hok
        subst hok'
        have hstep : (connectRetryLoop false (false :: tail)).2 =
            (connectRetryLoop false tail).2 := by
          simp [connectRetryLoop]
        rw [hstep] at h
        exact List.mem_cons_of_mem _ (ih h)

/-- C10: for every response byte stream and connection state, every store
into the 50-byte `header_str` buffer uses an index strictly below 49, the
index counts exactly the in-bounds stores (it is incremented only on such a
store), the final index — where the NUL terminator is then written — is at
most 49, and the captured bytes are exactly the first 49 bytes of the
stream: no out-of-bounds write occurs and the capture is always
NUL-terminated inside the buffer. -/
theorem C10_buffer_safety (pending : List Char) (openFlag : Bool) :
    (∀ j ∈ (readLoop pending openFlag 0).storeIdxs, j < HEADER_LEN) ∧
    (readLoop pending openFlag 0).idx = (readLoop pending openFlag 0).storeIdxs.length ∧
    (readLoop pending openFlag 0).idx ≤ HEADER_LEN ∧
    (readLoop pending openFlag 0).buf = pending.take HEADER_LEN := by
  refine ⟨readLoop_storeIdxs_lt pending openFlag 0, ?_,
    readLoop_idx_le pending openFlag 0 (by omega), ?_⟩
  · have h := readLoop_idx pending openFlag 0
    simpa using h
  · have h := readLoop_buf pending openFlag 0
    simpa using h

